import Mathlib

/-!
Verification of the membership-governance and program-setup logic of the
refref portal (`apps/portal/src/server/api/routers/project-members.ts`,
`programs/[id]/page.tsx`, `programs/[id]/setup/_components/RewardStep.tsx`).
The TypeScript is shallowly embedded: database rows become lists, tRPC
mutations become functions into `Except`, and the external identity
provider effects are modelled as explicit list updates.
-/

namespace RefRef

/-- Project-membership role: the `role` column of the `projectUser` table,
one of `"owner" | "admin" | "member"`. -/
inductive Role
  | owner
  | admin
  | member
deriving DecidableEq

/-- One `projectUser` row of the active project: its `(userId, role)` pair.
The `projectId` column is left implicit because every query in
`project-members.ts` filters on the same active project id. -/
structure Membership where
  userId : Nat
  role : Role
deriving DecidableEq

/-- The `projectUser` rows of the active project. -/
abbrev ProjectMembers := List Membership

/-- `TRPCError` codes thrown by the router. `INTERNAL_SERVER_ERROR` stands
for a plain `Error` (tRPC reports a non-`TRPCError` with that code). -/
inductive ErrCode
  | FORBIDDEN
  | BAD_REQUEST
  | NOT_FOUND
  | INTERNAL_SERVER_ERROR
deriving DecidableEq

/-- Result of `getProjectMemberCounts`: total / owner / admin row counts. -/
structure MemberCounts where
  total : Nat
  owners : Nat
  admins : Nat
deriving DecidableEq

/-- `getProjectMemberCounts`: three `count()` queries over `projectUser`
filtered by project, project+role=owner, project+role=admin. -/
def getProjectMemberCounts (db : ProjectMembers) : MemberCounts :=
  { total  := db.length
    owners := (db.filter (fun m => decide (m.role = Role.owner))).length
    admins := (db.filter (fun m => decide (m.role = Role.admin))).length }

/-- A `select … where projectId ∧ userId` destructured to its first row. -/
def findMember (db : ProjectMembers) (uid : Nat) : Option Membership :=
  db.find? (fun m => m.userId == uid)

/-- `validateRoleChange(db, projectId, userId, newRole, currentUserId)`:
the guard run by the `changeRole` mutation before any external call. -/
def validateRoleChange (db : ProjectMembers) (userId : Nat) (newRole : Role)
    (currentUserId : Nat) : Except ErrCode Unit :=
  match findMember db currentUserId with
  | none => .error ErrCode.FORBIDDEN
  | some currentUserMembership =>
    if currentUserMembership.role = Role.member then
      .error ErrCode.FORBIDDEN
    else
      match findMember db userId with
      | none => .error ErrCode.NOT_FOUND
      | some targetUserMembership =>
        if targetUserMembership.role = Role.owner ∧
            (getProjectMemberCounts db).owners = 1 ∧ newRole ≠ Role.owner then
          .error ErrCode.BAD_REQUEST
        else if targetUserMembership.role = Role.admin ∧
            (getProjectMemberCounts db).admins = 1 ∧
            (getProjectMemberCounts db).owners = 0 ∧ newRole = Role.member then
          .error ErrCode.BAD_REQUEST
        else if newRole = Role.owner ∧ currentUserMembership.role ≠ Role.owner then
          .error ErrCode.FORBIDDEN
        else
          .ok ()

/-- `validateMemberRemoval(db, projectId, userIdToRemove, currentUserId)`:
the guard run by the `remove` mutation before any external call. -/
def validateMemberRemoval (db : ProjectMembers) (userIdToRemove : Nat)
    (currentUserId : Nat) : Except ErrCode Unit :=
  match findMember db currentUserId with
  | none => .error ErrCode.FORBIDDEN
  | some currentUserMembership =>
    if currentUserMembership.role = Role.member then
      .error ErrCode.FORBIDDEN
    else
      match findMember db userIdToRemove with
      | none => .error ErrCode.NOT_FOUND
      | some targetUserMembership =>
        if (getProjectMemberCounts db).total = 1 then
          .error ErrCode.BAD_REQUEST
        else if targetUserMembership.role = Role.owner ∧
            (getProjectMemberCounts db).owners = 1 then
          .error ErrCode.BAD_REQUEST
        else if targetUserMembership.role = Role.admin ∧
            (getProjectMemberCounts db).admins = 1 ∧
            (getProjectMemberCounts db).owners = 0 then
          .error ErrCode.BAD_REQUEST
        else
          .ok ()

/-- The tRPC request context used by the router: `ctx.activeProjectId`,
`ctx.userId`, `ctx.projectUserRole` (each possibly unresolved) and the
rows of the active project in `projectUser`, reachable through `ctx.db`. -/
structure Ctx where
  activeProjectId : Option String
  userId : Option Nat
  projectUserRole : Option Role
  db : ProjectMembers

/-- Modelled from the spec: the `updateMemberRole` call of the identity provider
(§6 "updates … membership role by organization+member id"; the provider
itself is not part of the sample). It sets the role of the member. -/
def updateMemberRole (db : ProjectMembers) (memberId : Nat) (role : Role) :
    ProjectMembers :=
  db.map (fun m => if m.userId = memberId then { m with role := role } else m)

/-- Modelled from the spec: the `removeMember` call of the identity provider
(§6 "removes membership … by organization+member id"). It deletes the
row of the member. -/
def removeMember (db : ProjectMembers) (memberId : Nat) : ProjectMembers :=
  db.filter (fun m => !(m.userId == memberId))

/-- The `listMembers` query: guard on the active project, then return the
rows, the counts, and the id and role of the caller. -/
def listMembers (ctx : Ctx) :
    Except ErrCode (ProjectMembers × MemberCounts × Option Nat × Option Role) :=
  match ctx.activeProjectId with
  | none => .error ErrCode.BAD_REQUEST
  | some _ =>
    .ok (ctx.db, getProjectMemberCounts ctx.db, ctx.userId, ctx.projectUserRole)

/-- The `listInvitations` query: on a missing active project it throws a
plain `Error` (not a `TRPCError`), surfaced as `INTERNAL_SERVER_ERROR`. -/
def listInvitations (ctx : Ctx) : Except ErrCode Unit :=
  match ctx.activeProjectId with
  | none => .error ErrCode.INTERNAL_SERVER_ERROR
  | some _ => .ok ()

/-- The `invite` mutation: context guard, member-role guard, admin-cannot-
grant-owner guard, then the external `createInvitation` call (success). -/
def invite (ctx : Ctx) (email : String) (role : Role) : Except ErrCode Unit :=
  match ctx.activeProjectId, ctx.userId with
  | some _, some _ =>
    if ctx.projectUserRole = some Role.member then
      .error ErrCode.FORBIDDEN
    else if ctx.projectUserRole = some Role.admin ∧ role = Role.owner then
      .error ErrCode.FORBIDDEN
    else
      .ok ()
  | _, _ => .error ErrCode.BAD_REQUEST

/-- The `changeRole` mutation: context guard, `validateRoleChange`, then the
external `updateMemberRole`; on success the updated rows are returned. -/
def changeRole (ctx : Ctx) (inputUserId : Nat) (inputRole : Role) :
    Except ErrCode ProjectMembers :=
  match ctx.activeProjectId, ctx.userId with
  | some _, some uid =>
    match validateRoleChange ctx.db inputUserId inputRole uid with
    | .error e => .error e
    | .ok _ => .ok (updateMemberRole ctx.db inputUserId inputRole)
  | _, _ => .error ErrCode.BAD_REQUEST

/-- The `remove` mutation: context guard, `validateMemberRemoval`, then the
external `removeMember`; on success the updated rows are returned. -/
def remove (ctx : Ctx) (inputUserId : Nat) : Except ErrCode ProjectMembers :=
  match ctx.activeProjectId, ctx.userId with
  | some _, some uid =>
    match validateMemberRemoval ctx.db inputUserId uid with
    | .error e => .error e
    | .ok _ => .ok (removeMember ctx.db inputUserId)
  | _, _ => .error ErrCode.BAD_REQUEST

/-- The `cancelInvitation` mutation: only the role of the caller is checked
(there is no active-project guard in the source). -/
def cancelInvitation (ctx : Ctx) (id : String) : Except ErrCode Unit :=
  if ctx.projectUserRole = some Role.member then
    .error ErrCode.FORBIDDEN
  else
    .ok ()

/-- The `resendInvitation` mutation: member-role guard and admin-cannot-
grant-owner guard; no active-project guard in the source. -/
def resendInvitation (ctx : Ctx) (email : String) (role : Role) :
    Except ErrCode Unit :=
  if ctx.projectUserRole = some Role.member then
    .error ErrCode.FORBIDDEN
  else if ctx.projectUserRole = some Role.admin ∧ role = Role.owner then
    .error ErrCode.FORBIDDEN
  else
    .ok ()

/-- The `acceptInvitation` mutation: no guard at all in the source; it
forwards directly to the external provider and reports success. -/
def acceptInvitation (ctx : Ctx) (id : String) : Except ErrCode Unit :=
  .ok ()

/-! ## Program setup state machine (`programs/[id]/page.tsx`) -/

/-- One entry of `program.setup.steps`: named step with `isRequired` and
`isComplete` flags. -/
structure SetupStep where
  id : String
  isRequired : Bool
  isComplete : Bool
deriving DecidableEq

/-- `pendingSteps` from `ProgramSetupPage`:
`steps.filter((step) => step.isRequired && !step.isComplete).length`. -/
def pendingSteps (steps : List SetupStep) : Nat :=
  (steps.filter (fun step => step.isRequired && !step.isComplete)).length

/-- `allRequiredComplete` from `ProgramSetupPage`:
`steps.filter((step) => step.isRequired).every((step) => step.isComplete)`. -/
def allRequiredComplete (steps : List SetupStep) : Bool :=
  (steps.filter (fun step => step.isRequired)).all (fun step => step.isComplete)

/-- Modelled from the spec: `canProceedToStep` from `@/lib/program`, a file
absent from the sample. Spec §4.2: "navigating to a step is permitted only
if all required steps preceding it are complete (`canProceedToStep` gate) —
a pure function of the step graph and completion flags". The steps
preceding `stepId` are the ones before its first occurrence in the ordered
list. -/
def canProceedToStep (stepId : String) (steps : List SetupStep) : Bool :=
  (steps.takeWhile (fun s => s.id != stepId)).all
    (fun s => !s.isRequired || s.isComplete)

/-! ## Reward step submission (`RewardStep.tsx`) -/

/-- The value type of a reward: `"fixed" | "percentage"`. -/
inductive ValueType
  | fixed
  | percentage
deriving DecidableEq

/-- The `referrerReward` side of the reward form. -/
structure ReferrerRewardForm where
  enabled : Bool
  valueType : ValueType
  value : ℚ
  currency : String
deriving DecidableEq

/-- The `refereeReward` side of the reward form. -/
structure RefereeRewardForm where
  enabled : Bool
  valueType : ValueType
  value : ℚ
  currency : String
  minPurchaseAmount : Option ℚ
  validityDays : Nat
deriving DecidableEq

/-- The values of the reward form (`ProgramTemplateRewardStepV2Type`). -/
structure RewardFormValues where
  referrerReward : ReferrerRewardForm
  refereeReward : RefereeRewardForm
deriving DecidableEq

/-- Modelled from the spec: the enumerated currency set (`RewardCurrencies`
from `@refref/types`, absent from the sample); the UI renders symbols for
USD, EUR and GBP. -/
def RewardCurrencies : List String := ["USD", "EUR", "GBP"]

/-- Modelled from the spec: per-side validation of
`programTemplateRewardStepSchemaV2` (absent from the sample). Spec §4.3:
value type ∈ {fixed, percentage}; percentage bounded 1–100; fixed amount
positive; currency in the enumerated set; only an enabled side is
validated. -/
def validSide (enabled : Bool) (valueType : ValueType) (value : ℚ)
    (currency : String) : Bool :=
  !enabled ||
    (decide (currency ∈ RewardCurrencies) &&
      match valueType with
      | ValueType.percentage => decide (1 ≤ value) && decide (value ≤ 100)
      | ValueType.fixed => decide (0 < value))

/-- Modelled from the spec: the referee side additionally carries a validity
window of 1–365 days (§4.3); again only checked when the side is enabled. -/
def validRefereeWindow (r : RefereeRewardForm) : Bool :=
  !r.enabled || (decide (1 ≤ r.validityDays) && decide (r.validityDays ≤ 365))

/-- Modelled from the spec: whole-form validation — submission fails if any
enabled side is out of range (§4.3). -/
def rewardStepValid (v : RewardFormValues) : Bool :=
  validSide v.referrerReward.enabled v.referrerReward.valueType
      v.referrerReward.value v.referrerReward.currency &&
    validSide v.refereeReward.enabled v.refereeReward.valueType
      v.refereeReward.value v.refereeReward.currency &&
    validRefereeWindow v.refereeReward

/-- The `referrer` entry of the transformed reward config
(`type: "cash" as const` plus the submitted referrer fields). -/
structure RewardReferrerConfig where
  type : String
  valueType : ValueType
  value : ℚ
  currency : String
deriving DecidableEq

/-- The `referee` entry of the transformed reward config
(`type: "discount" as const` plus the submitted referee fields). -/
structure RewardRefereeConfig where
  type : String
  valueType : ValueType
  value : ℚ
  currency : String
  minPurchaseAmount : Option ℚ
  validityDays : Nat
deriving DecidableEq

/-- The transformed reward configuration built by `submitForm`. -/
structure RewardConfig where
  referrer : RewardReferrerConfig
  referee : RewardRefereeConfig
deriving DecidableEq

/-- `submitForm` from `RewardStep.tsx`: validate the form (throwing on an
invalid state), build `rewardConfig` from both sides unconditionally, and
return it only when at least one side is enabled — otherwise return
`undefined` (here `none`). -/
def submitForm (v : RewardFormValues) : Except String (Option RewardConfig) :=
  if ¬ rewardStepValid v = true then
    .error "Reward configuration is invalid. Please check the fields."
  else
    let rewardConfig : RewardConfig :=
      { referrer :=
          { type := "cash"
            valueType := v.referrerReward.valueType
            value := v.referrerReward.value
            currency := v.referrerReward.currency }
        referee :=
          { type := "discount"
            valueType := v.refereeReward.valueType
            value := v.refereeReward.value
            currency := v.refereeReward.currency
            minPurchaseAmount := v.refereeReward.minPurchaseAmount
            validityDays := v.refereeReward.validityDays } }
    .ok (if v.referrerReward.enabled || v.refereeReward.enabled then
          some rewardConfig
        else
          none)

/-! ## Helper lemmas -/

/-- A successful `findMember` lookup returns a row of the table whose
`userId` is the one looked up. -/
lemma mem_of_findMember {db : ProjectMembers} {u : Nat} {m : Membership}
    (h : findMember db u = some m) : m ∈ db ∧ m.userId = u := by
  refine ⟨List.mem_of_find?_eq_some h, ?_⟩
  have := List.find?_some h
  simpa using this

/-- A list holding two distinct elements has length at least two. -/
lemma one_lt_length_of_pair {α : Type} {x y : α} {l : List α}
    (hx : x ∈ l) (hy : y ∈ l) (hxy : x ≠ y) : 1 < l.length := by
  rcases l with _ | ⟨a, _ | ⟨b, t⟩⟩
  · simp at hx
  · simp at hx hy
    exact absurd (hx.trans hy.symm) hxy
  · simp only [List.length_cons]
    omega

/-- `findMember` after `updateMemberRole` returns the looked-up row with the
update applied to it. -/
lemma findMember_updateMemberRole (db : ProjectMembers) (u : Nat) (r : Role)
    (v : Nat) :
    findMember (updateMemberRole db u r) v =
      (findMember db v).map
        (fun m => if m.userId = u then { m with role := r } else m) := by
  induction db with
  | nil => rfl
  | cons a tl ih =>
    simp only [updateMemberRole, List.map_cons, findMember, List.find?_cons] at *
    by_cases h : a.userId = v
    · have h1 : (((if a.userId = u then { a with role := r } else a) :
          Membership).userId == v) = true := by
        split <;> simp [h]
      have h2 : (a.userId == v) = true := by simp [h]
      rw [h1, h2]
      simp
    · have h1 : (((if a.userId = u then { a with role := r } else a) :
          Membership).userId == v) = false := by
        split <;> simp [h]
      have h2 : (a.userId == v) = false := by simp [h]
      rw [h1, h2]
      exact ih

/-- If the table holds an owner row and an admin row, or two distinct owner
rows, the relevant counts are bounded below; packaged as: two distinct
rows bound `total` below by two. -/
lemma total_ge_two_of_pair {db : ProjectMembers} {x y : Membership}
    (hx : x ∈ db) (hy : y ∈ db) (hxy : x ≠ y) :
    (getProjectMemberCounts db).total ≠ 1 := by
  have := one_lt_length_of_pair hx hy hxy
  simp only [getProjectMemberCounts]
  omega

/-! ## Claim theorems -/

/-- C1: for a project with exactly one owner, `changeRole` targeting that
owner with a new role other than owner, and `remove` targeting that owner,
are rejected with BAD_REQUEST (no mutation is applied); once a second
member is promoted to owner, demoting the original owner succeeds. -/
theorem sole_owner_demotion_blocked
    (ctx : Ctx) (pid : String) (c t : Nat) (cm tm : Membership) (newRole : Role)
    (hp : ctx.activeProjectId = some pid) (hu : ctx.userId = some c)
    (hc : findMember ctx.db c = some cm) (hcm : cm.role ≠ Role.member)
    (ht : findMember ctx.db t = some tm) (htm : tm.role = Role.owner)
    (hsole : (getProjectMemberCounts ctx.db).owners = 1)
    (hnew : newRole ≠ Role.owner) :
    changeRole ctx t newRole = .error ErrCode.BAD_REQUEST ∧
    remove ctx t = .error ErrCode.BAD_REQUEST ∧
    (∀ (u₂ : Nat) (um : Membership),
      findMember ctx.db u₂ = some um → u₂ ≠ t →
      changeRole { ctx with db := updateMemberRole ctx.db u₂ Role.owner } t
          newRole =
        .ok (updateMemberRole (updateMemberRole ctx.db u₂ Role.owner) t
          newRole)) := by
  refine ⟨?_, ?_, ?_⟩
  · simp [changeRole, hp, hu, validateRoleChange, hc, ht, hcm, htm, hsole, hnew]
  · simp [remove, hp, hu, validateMemberRemoval, hc, ht, hcm, htm, hsole]
  · intro u₂ um hum hne
    have htuid : tm.userId = t := (mem_of_findMember ht).2
    have hcuid : cm.userId = c := (mem_of_findMember hc).2
    have humuid : um.userId = u₂ := (mem_of_findMember hum).2
    have hfc : findMember (updateMemberRole ctx.db u₂ Role.owner) c =
        some (if cm.userId = u₂ then { cm with role := Role.owner } else cm) := by
      rw [findMember_updateMemberRole, hc]; rfl
    have hft : findMember (updateMemberRole ctx.db u₂ Role.owner) t = some tm := by
      rw [findMember_updateMemberRole, ht]
      have : ¬ tm.userId = u₂ := by
        rw [htuid]; exact fun hh => hne hh.symm
      simp [this]
    have hcrole :
        ¬ ((if cm.userId = u₂ then { cm with role := Role.owner } else cm) :
          Membership).role = Role.member := by
      split
      · simp
      · exact hcm
    have howners₂ :
        (getProjectMemberCounts (updateMemberRole ctx.db u₂ Role.owner)).owners
          ≠ 1 := by
      have htmmem : tm ∈ updateMemberRole ctx.db u₂ Role.owner := by
        have h0 := (mem_of_findMember ht).1
        have h1 := List.mem_map_of_mem
          (fun m : Membership =>
            if m.userId = u₂ then { m with role := Role.owner } else m) h0
        have h2 : ¬ tm.userId = u₂ := by
          rw [htuid]; exact fun hh => hne hh.symm
        simpa [updateMemberRole, h2] using h1
      have hummem : ({ um with role := Role.owner } : Membership) ∈
          updateMemberRole ctx.db u₂ Role.owner := by
        have h0 := (mem_of_findMember hum).1
        have h1 := List.mem_map_of_mem
          (fun m : Membership =>
            if m.userId = u₂ then { m with role := Role.owner } else m) h0
        simpa [updateMemberRole, humuid] using h1
      have htmf : tm ∈ (updateMemberRole ctx.db u₂ Role.owner).filter
          (fun m => decide (m.role = Role.owner)) :=
        List.mem_filter.mpr ⟨htmmem, by simp [htm]⟩
      have humf : ({ um with role := Role.owner } : Membership) ∈
          (updateMemberRole ctx.db u₂ Role.owner).filter
            (fun m => decide (m.role = Role.owner)) :=
        List.mem_filter.mpr ⟨hummem, by simp⟩
      have hneq : tm ≠ ({ um with role := Role.owner } : Membership) := by
        intro hEq
        have : tm.userId = um.userId := by rw [hEq]
        rw [htuid, humuid] at this
        exact hne this.symm
      have := one_lt_length_of_pair htmf humf hneq
      simp only [getProjectMemberCounts]
      omega
    simp [changeRole, hp, hu, validateRoleChange, hfc, hft, hcrole, htm,
      howners₂, hnew]

/-- C2: for a project with zero owners and exactly one admin, `changeRole`
demoting that admin to member and `remove` targeting that admin are
rejected with BAD_REQUEST; both succeed on any state with a second admin
or with an owner. -/
theorem sole_admin_demotion_blocked
    (ctx : Ctx) (pid : String) (c t : Nat) (cm tm : Membership)
    (hp : ctx.activeProjectId = some pid) (hu : ctx.userId = some c)
    (hc : findMember ctx.db c = some cm) (hcm : cm.role ≠ Role.member)
    (ht : findMember ctx.db t = some tm) (htm : tm.role = Role.admin)
    (howners : (getProjectMemberCounts ctx.db).owners = 0)
    (hadmins : (getProjectMemberCounts ctx.db).admins = 1) :
    changeRole ctx t Role.member = .error ErrCode.BAD_REQUEST ∧
    remove ctx t = .error ErrCode.BAD_REQUEST ∧
    (∀ (ctx₂ : Ctx) (pid₂ : String) (c₂ t₂ : Nat) (cm₂ tm₂ : Membership),
      ctx₂.activeProjectId = some pid₂ → ctx₂.userId = some c₂ →
      findMember ctx₂.db c₂ = some cm₂ → cm₂.role ≠ Role.member →
      findMember ctx₂.db t₂ = some tm₂ → tm₂.role = Role.admin →
      (2 ≤ (getProjectMemberCounts ctx₂.db).admins ∨
        1 ≤ (getProjectMemberCounts ctx₂.db).owners) →
      changeRole ctx₂ t₂ Role.member =
          .ok (updateMemberRole ctx₂.db t₂ Role.member) ∧
        remove ctx₂ t₂ = .ok (removeMember ctx₂.db t₂)) := by
  refine ⟨?_, ?_, ?_⟩
  · simp [changeRole, hp, hu, validateRoleChange, hc, ht, hcm, htm, howners,
      hadmins]
  · simp [remove, hp, hu, validateMemberRemoval, hc, ht, hcm, htm, howners,
      hadmins]
  · intro ctx₂ pid₂ c₂ t₂ cm₂ tm₂ hp₂ hu₂ hc₂ hcm₂ ht₂ htm₂ hx
    have htmem := (mem_of_findMember ht₂).1
    rcases hx with h2a | h1o
    · have hB : (getProjectMemberCounts ctx₂.db).admins ≠ 1 := by omega
      have htot : (getProjectMemberCounts ctx₂.db).total ≠ 1 := by
        have hle := List.length_filter_le
          (fun m : Membership => decide (m.role = Role.admin)) ctx₂.db
        simp only [getProjectMemberCounts] at h2a ⊢
        omega
      constructor
      · simp [changeRole, hp₂, hu₂, validateRoleChange, hc₂, ht₂, hcm₂, htm₂,
          hB]
      · simp [remove, hp₂, hu₂, validateMemberRemoval, hc₂, ht₂, hcm₂, htm₂,
          hB, htot]
    · have hC : (getProjectMemberCounts ctx₂.db).owners ≠ 0 := by omega
      have htot : (getProjectMemberCounts ctx₂.db).total ≠ 1 := by
        have h1o' : 0 < ((ctx₂.db.filter
            (fun m => decide (m.role = Role.owner))).length) := by
          simp only [getProjectMemberCounts] at h1o; omega
        obtain ⟨om, hom⟩ := List.exists_mem_of_length_pos h1o'
        have hom' := List.mem_filter.mp hom
        have homr : om.role = Role.owner := of_decide_eq_true hom'.2
        have hneq : om ≠ tm₂ := by
          intro hEq
          rw [hEq, htm₂] at homr
          exact Role.noConfusion homr
        exact total_ge_two_of_pair hom'.1 htmem hneq
      constructor
      · simp [changeRole, hp₂, hu₂, validateRoleChange, hc₂, ht₂, hcm₂, htm₂,
          hC]
      · simp [remove, hp₂, hu₂, validateMemberRemoval, hc₂, ht₂, hcm₂, htm₂,
          hC, htot]

/-- C3: `remove` targeting any user of a project whose total member count is
one is rejected with some error before any external mutation, regardless of
the roles of the caller and the target. -/
theorem last_member_removal_always_fails (ctx : Ctx) (t : Nat)
    (h1 : (getProjectMemberCounts ctx.db).total = 1) :
    ∃ e, remove ctx t = .error e := by
  have hv : ∀ u, ∃ e, validateMemberRemoval ctx.db t u = Except.error e := by
    intro u
    rcases hcf : findMember ctx.db u with _ | cm
    · exact ⟨ErrCode.FORBIDDEN, by simp [validateMemberRemoval, hcf]⟩
    · by_cases hm : cm.role = Role.member
      · exact ⟨ErrCode.FORBIDDEN, by simp [validateMemberRemoval, hcf, hm]⟩
      · rcases htf : findMember ctx.db t with _ | tm
        · exact ⟨ErrCode.NOT_FOUND,
            by simp [validateMemberRemoval, hcf, hm, htf]⟩
        · exact ⟨ErrCode.BAD_REQUEST,
            by simp [validateMemberRemoval, hcf, hm, htf, h1]⟩
  rcases hA : ctx.activeProjectId with _ | p
  · exact ⟨ErrCode.BAD_REQUEST, by simp [remove, hA]⟩
  rcases hU : ctx.userId with _ | u
  · exact ⟨ErrCode.BAD_REQUEST, by simp [remove, hA, hU]⟩
  obtain ⟨e, he⟩ := hv u
  exact ⟨e, by simp [remove, hA, hU, he]⟩

/-- C4: a caller whose role in the active project is member receives
FORBIDDEN from invite, changeRole, remove, cancelInvitation and
resendInvitation, for every input, before any external mutation. -/
theorem member_caller_forbidden (ctx : Ctx) (p : String) (u : Nat)
    (m : Membership)
    (hp : ctx.activeProjectId = some p) (hu : ctx.userId = some u)
    (hrole : ctx.projectUserRole = some Role.member)
    (hm : findMember ctx.db u = some m) (hmrole : m.role = Role.member) :
    (∀ e r, invite ctx e r = .error ErrCode.FORBIDDEN) ∧
    (∀ t r, changeRole ctx t r = .error ErrCode.FORBIDDEN) ∧
    (∀ t, remove ctx t = .error ErrCode.FORBIDDEN) ∧
    (∀ i, cancelInvitation ctx i = .error ErrCode.FORBIDDEN) ∧
    (∀ e r, resendInvitation ctx e r = .error ErrCode.FORBIDDEN) := by
  refine ⟨?_, ?_, ?_, ?_, ?_⟩
  · intro e r
    simp [invite, hp, hu, hrole]
  · intro t r
    simp [changeRole, hp, hu, validateRoleChange, hm, hmrole]
  · intro t
    simp [remove, hp, hu, validateMemberRemoval, hm, hmrole]
  · intro i
    simp [cancelInvitation, hrole]
  · intro e r
    simp [resendInvitation, hrole]

/-- C5: the `invite` of an admin caller, `resendInvitation` and `changeRole` with
role owner fail with FORBIDDEN; the same operations by an owner caller (with a
member target for `changeRole`) succeed. -/
theorem owner_only_grants
    (ctxA ctxO : Ctx) (pA pO : String) (uA uO tA tO : Nat)
    (cmA cmO tmA tmO : Membership)
    (hpA : ctxA.activeProjectId = some pA) (huA : ctxA.userId = some uA)
    (hrA : ctxA.projectUserRole = some Role.admin)
    (hcA : findMember ctxA.db uA = some cmA) (hcmA : cmA.role = Role.admin)
    (htA : findMember ctxA.db tA = some tmA)
    (hpO : ctxO.activeProjectId = some pO) (huO : ctxO.userId = some uO)
    (hrO : ctxO.projectUserRole = some Role.owner)
    (hcO : findMember ctxO.db uO = some cmO) (hcmO : cmO.role = Role.owner)
    (htO : findMember ctxO.db tO = some tmO) (htmO : tmO.role = Role.member) :
    (∀ e, invite ctxA e Role.owner = .error ErrCode.FORBIDDEN) ∧
    changeRole ctxA tA Role.owner = .error ErrCode.FORBIDDEN ∧
    (∀ e, resendInvitation ctxA e Role.owner = .error ErrCode.FORBIDDEN) ∧
    (∀ e, invite ctxO e Role.owner = .ok ()) ∧
    changeRole ctxO tO Role.owner =
      .ok (updateMemberRole ctxO.db tO Role.owner) ∧
    (∀ e, resendInvitation ctxO e Role.owner = .ok ()) := by
  refine ⟨?_, ?_, ?_, ?_, ?_, ?_⟩
  · intro e
    simp [invite, hpA, huA, hrA]
  · simp [changeRole, hpA, huA, validateRoleChange, hcA, hcmA, htA]
  · intro e
    simp [resendInvitation, hrA]
  · intro e
    simp [invite, hpO, huO, hrO]
  · simp [changeRole, hpO, huO, validateRoleChange, hcO, hcmO, htO, htmO]
  · intro e
    simp [resendInvitation, hrO]

/-- C6 counterexample: with the whole request context absent (no active
project, no user id, no resolved role), `acceptInvitation`,
`cancelInvitation` and `resendInvitation` all succeed instead of failing
with BAD_REQUEST or FORBIDDEN. -/
theorem unguarded_operations_without_context :
    acceptInvitation
        { activeProjectId := none, userId := none, projectUserRole := none,
          db := [] } "inv-1" = .ok () ∧
      cancelInvitation
        { activeProjectId := none, userId := none, projectUserRole := none,
          db := [] } "inv-1" = .ok () ∧
      resendInvitation
        { activeProjectId := none, userId := none, projectUserRole := none,
          db := [] } "a@b.c" Role.member = .ok () := by
  refine ⟨rfl, ?_, ?_⟩ <;>
    simp [cancelInvitation, resendInvitation]

/-- C6 amended: `invite`, `changeRole` and `remove` fail with BAD_REQUEST
when the active-project context or the caller id is absent; `listMembers`
fails with BAD_REQUEST and `listInvitations` with an untyped error
(surfaced as INTERNAL_SERVER_ERROR) when the active project is absent; the
remaining operations perform no such context check. -/
theorem missing_context_guards (ctx : Ctx)
    (h : ctx.activeProjectId = none ∨ ctx.userId = none) :
    (ctx.activeProjectId = none →
      listMembers ctx = .error ErrCode.BAD_REQUEST ∧
      listInvitations ctx = .error ErrCode.INTERNAL_SERVER_ERROR) ∧
    (∀ e r, invite ctx e r = .error ErrCode.BAD_REQUEST) ∧
    (∀ u r, changeRole ctx u r = .error ErrCode.BAD_REQUEST) ∧
    (∀ u, remove ctx u = .error ErrCode.BAD_REQUEST) := by
  refine ⟨fun hA => ⟨by simp [listMembers, hA], by simp [listInvitations, hA]⟩,
    ?_, ?_, ?_⟩
  · intro e r
    rcases h with hA | hU
    · cases hU : ctx.userId <;> simp [invite, hA, hU]
    · cases hA : ctx.activeProjectId <;> simp [invite, hA, hU]
  · intro u r
    rcases h with hA | hU
    · cases hU : ctx.userId <;> simp [changeRole, hA, hU]
    · cases hA : ctx.activeProjectId <;> simp [changeRole, hA, hU]
  · intro u
    rcases h with hA | hU
    · cases hU : ctx.userId <;> simp [remove, hA, hU]
    · cases hA : ctx.activeProjectId <;> simp [remove, hA, hU]

/-- C7: `pendingSteps` counts exactly the steps that are required and
incomplete, and `allRequiredComplete` holds exactly when every required
step is complete. -/
theorem setup_progress_aggregates (steps : List SetupStep) :
    pendingSteps steps =
      steps.countP (fun s => decide (s.isRequired = true ∧ s.isComplete = false)) ∧
    (allRequiredComplete steps = true ↔
      ∀ s ∈ steps, s.isRequired = true → s.isComplete = true) := by
  constructor
  · rw [List.countP_eq_length_filter]
    unfold pendingSteps
    congr 1
    apply List.filter_congr
    intro s _
    cases hr : s.isRequired <;> cases hco : s.isComplete <;> simp
  · unfold allRequiredComplete
    rw [List.all_eq_true]
    constructor
    · intro h s hs hreq
      exact h s (List.mem_filter.mpr ⟨hs, by simp [hreq]⟩)
    · intro h s hs
      have hmem := List.mem_filter.mp hs
      exact h s hmem.1 (by simpa using hmem.2)

/-- C8: `canProceedToStep "rewards"` returns false when a required,
incomplete design step precedes the rewards step, and in general
`canProceedToStep` permits a step exactly when every required step
preceding it is complete. -/
theorem canProceedToStep_gate (steps : List SetupStep) (d : SetupStep)
    (hd : d ∈ steps.takeWhile (fun s => s.id != "rewards"))
    (hid : d.id = "design")
    (hreq : d.isRequired = true) (hinc : d.isComplete = false) :
    canProceedToStep "rewards" steps = false ∧
    ∀ (stepId : String) (steps₂ : List SetupStep),
      (canProceedToStep stepId steps₂ = true ↔
        ∀ s ∈ steps₂.takeWhile (fun t => t.id != stepId),
          s.isRequired = true → s.isComplete = true) := by
  have hgen : ∀ (stepId : String) (steps₂ : List SetupStep),
      (canProceedToStep stepId steps₂ = true ↔
        ∀ s ∈ steps₂.takeWhile (fun t => t.id != stepId),
          s.isRequired = true → s.isComplete = true) := by
    intro stepId steps₂
    unfold canProceedToStep
    rw [List.all_eq_true]
    constructor
    · intro h s hs hr
      have hval := h s hs
      rw [hr] at hval
      simpa using hval
    · intro h s hs
      cases hr : s.isRequired
      · simp
      · simp [h s hs hr]
  refine ⟨?_, hgen⟩
  cases hcp : canProceedToStep "rewards" steps
  · rfl
  · exfalso
    have hcomp := (hgen "rewards" steps).mp hcp d hd hreq
    rw [hinc] at hcomp
    exact Bool.noConfusion hcomp

/-- C9: a reward-step submission with both the referrer and the referee side
disabled resolves to the explicit absent value (`undefined`, here `none`),
not to an empty configuration object. -/
theorem submitForm_both_disabled (v : RewardFormValues)
    (h1 : v.referrerReward.enabled = false)
    (h2 : v.refereeReward.enabled = false) :
    submitForm v = .ok none := by
  have hvalid : rewardStepValid v = true := by
    simp [rewardStepValid, validSide, validRefereeWindow, h1, h2]
  simp [submitForm, hvalid, h1, h2]

/-- C10: a valid reward-step submission with at least one side enabled
resolves to a configuration holding both a referrer entry of type "cash"
and a referee entry of type "discount", carrying the submitted values of each side, even when that side is disabled. -/
theorem submitForm_enabled_shape (v : RewardFormValues)
    (hvalid : rewardStepValid v = true)
    (hen : v.referrerReward.enabled = true ∨ v.refereeReward.enabled = true) :
    submitForm v = .ok (some
      { referrer :=
          { type := "cash"
            valueType := v.referrerReward.valueType
            value := v.referrerReward.value
            currency := v.referrerReward.currency }
        referee :=
          { type := "discount"
            valueType := v.refereeReward.valueType
            value := v.refereeReward.value
            currency := v.refereeReward.currency
            minPurchaseAmount := v.refereeReward.minPurchaseAmount
            validityDays := v.refereeReward.validityDays } }) := by
  rcases hen with h | h <;> simp [submitForm, hvalid, h]

/-! ## Concrete witness states -/

/-- A project with a sole owner (user 1) and one plain member (user 2),
viewed by the owner. -/
def ctxSoleOwner : Ctx :=
  { activeProjectId := some "p", userId := some 1,
    projectUserRole := some Role.owner,
    db := [⟨1, Role.owner⟩, ⟨2, Role.member⟩] }

/-- A project with no owner, a sole admin (user 1) and one plain member
(user 2), viewed by the admin. -/
def ctxSoleAdmin : Ctx :=
  { activeProjectId := some "p", userId := some 1,
    projectUserRole := some Role.admin,
    db := [⟨1, Role.admin⟩, ⟨2, Role.member⟩] }

/-- A project whose only member is user 1. -/
def ctxLastMember : Ctx :=
  { activeProjectId := some "p", userId := some 1,
    projectUserRole := some Role.owner, db := [⟨1, Role.owner⟩] }

/-- A project viewed by a member-role caller (user 3). -/
def ctxMemberCaller : Ctx :=
  { activeProjectId := some "p", userId := some 3,
    projectUserRole := some Role.member,
    db := [⟨1, Role.owner⟩, ⟨3, Role.member⟩] }

/-- A three-member project: owner 1, admin 2, member 3. -/
def dbMixed : ProjectMembers :=
  [⟨1, Role.owner⟩, ⟨2, Role.admin⟩, ⟨3, Role.member⟩]

/-- `dbMixed` viewed by its admin (user 2). -/
def ctxAdminCaller : Ctx :=
  { activeProjectId := some "p", userId := some 2,
    projectUserRole := some Role.admin, db := dbMixed }

/-- `dbMixed` viewed by its owner (user 1). -/
def ctxOwnerCaller : Ctx :=
  { activeProjectId := some "p", userId := some 1,
    projectUserRole := some Role.owner, db := dbMixed }

/-- A context with no active project. -/
def ctxNoProject : Ctx :=
  { activeProjectId := none, userId := some 1,
    projectUserRole := some Role.owner, db := [] }

/-- A context with an active project but no resolved caller id. -/
def ctxNoUser : Ctx :=
  { activeProjectId := some "p", userId := none,
    projectUserRole := some Role.owner, db := [⟨1, Role.owner⟩] }

/-- A two-step setup where a required design step precedes rewards and is
incomplete. -/
def stepsExample : List SetupStep :=
  [⟨"design", true, false⟩, ⟨"rewards", true, false⟩]

/-- Reward form values with both sides disabled. -/
def formBothDisabled : RewardFormValues :=
  { referrerReward :=
      { enabled := false, valueType := ValueType.fixed, value := 10,
        currency := "USD" }
    refereeReward :=
      { enabled := false, valueType := ValueType.percentage, value := 20,
        currency := "USD", minPurchaseAmount := some 50, validityDays := 30 } }

/-- Reward form values with the referrer side disabled and a valid enabled
referee side. -/
def formRefereeOnly : RewardFormValues :=
  { referrerReward :=
      { enabled := false, valueType := ValueType.fixed, value := 10,
        currency := "USD" }
    refereeReward :=
      { enabled := true, valueType := ValueType.percentage, value := 20,
        currency := "USD", minPurchaseAmount := some 50, validityDays := 30 } }

/-! ## Witnesses -/

/-- Witness for C1 on `ctxSoleOwner`: demoting and removing the sole owner
is rejected; after promoting user 2 to owner, demoting user 1 succeeds. -/
theorem sole_owner_demotion_blocked_witness :
    changeRole ctxSoleOwner 1 Role.admin = .error ErrCode.BAD_REQUEST ∧
    remove ctxSoleOwner 1 = .error ErrCode.BAD_REQUEST ∧
    changeRole { ctxSoleOwner with
        db := updateMemberRole ctxSoleOwner.db 2 Role.owner } 1 Role.admin =
      .ok (updateMemberRole (updateMemberRole ctxSoleOwner.db 2 Role.owner) 1
        Role.admin) := by
  have h := sole_owner_demotion_blocked ctxSoleOwner "p" 1 1
    ⟨1, Role.owner⟩ ⟨1, Role.owner⟩ Role.admin rfl rfl rfl (by decide) rfl
    rfl (by decide) (by decide)
  exact ⟨h.1, h.2.1, h.2.2 2 ⟨2, Role.member⟩ rfl (by decide)⟩

/-- Witness for C2 on `ctxSoleAdmin`: demoting and removing the sole admin
of an ownerless project is rejected; on `dbMixed` (which has an owner) the
same operations on admin 2 succeed. -/
theorem sole_admin_demotion_blocked_witness :
    changeRole ctxSoleAdmin 1 Role.member = .error ErrCode.BAD_REQUEST ∧
    remove ctxSoleAdmin 1 = .error ErrCode.BAD_REQUEST ∧
    changeRole ctxOwnerCaller 2 Role.member =
      .ok (updateMemberRole dbMixed 2 Role.member) ∧
    remove ctxOwnerCaller 2 = .ok (removeMember dbMixed 2) := by
  have h := sole_admin_demotion_blocked ctxSoleAdmin "p" 1 1
    ⟨1, Role.admin⟩ ⟨1, Role.admin⟩ rfl rfl rfl (by decide) rfl rfl
    (by decide) (by decide)
  have h₂ := h.2.2 ctxOwnerCaller "p" 1 2 ⟨1, Role.owner⟩ ⟨2, Role.admin⟩
    rfl rfl rfl (by decide) rfl rfl (Or.inr (by decide))
  exact ⟨h.1, h.2.1, h₂.1, h₂.2⟩

/-- Witness for C3 on `ctxLastMember`: removing the only member fails. -/
theorem last_member_removal_always_fails_witness :
    ∃ e, remove ctxLastMember 1 = .error e :=
  last_member_removal_always_fails ctxLastMember 1 (by decide)

/-- Witness for C4 on `ctxMemberCaller`: a member-role caller is forbidden
from each governance mutation. -/
theorem member_caller_forbidden_witness :
    invite ctxMemberCaller "a@b.c" Role.admin = .error ErrCode.FORBIDDEN ∧
    changeRole ctxMemberCaller 1 Role.member = .error ErrCode.FORBIDDEN ∧
    remove ctxMemberCaller 1 = .error ErrCode.FORBIDDEN ∧
    cancelInvitation ctxMemberCaller "inv-1" = .error ErrCode.FORBIDDEN ∧
    resendInvitation ctxMemberCaller "a@b.c" Role.admin =
      .error ErrCode.FORBIDDEN := by
  have h := member_caller_forbidden ctxMemberCaller "p" 3 ⟨3, Role.member⟩
    rfl rfl rfl rfl rfl
  exact ⟨h.1 "a@b.c" Role.admin, h.2.1 1 Role.member, h.2.2.1 1,
    h.2.2.2.1 "inv-1", h.2.2.2.2 "a@b.c" Role.admin⟩

/-- Witness for C5 on `dbMixed`: the admin caller cannot grant owner via
invite or changeRole, the owner caller can. -/
theorem owner_only_grants_witness :
    invite ctxAdminCaller "a@b.c" Role.owner = .error ErrCode.FORBIDDEN ∧
    changeRole ctxAdminCaller 3 Role.owner = .error ErrCode.FORBIDDEN ∧
    invite ctxOwnerCaller "a@b.c" Role.owner = .ok () ∧
    changeRole ctxOwnerCaller 3 Role.owner =
      .ok (updateMemberRole dbMixed 3 Role.owner) := by
  have h := owner_only_grants ctxAdminCaller ctxOwnerCaller "p" "p" 2 1 3 3
    ⟨2, Role.admin⟩ ⟨1, Role.owner⟩ ⟨3, Role.member⟩ ⟨3, Role.member⟩
    rfl rfl rfl rfl rfl rfl rfl rfl rfl rfl rfl rfl rfl
  exact ⟨h.1 "a@b.c", h.2.1, h.2.2.2.1 "a@b.c", h.2.2.2.2.1⟩

/-- Witness for the amended C6 on `ctxNoProject` and `ctxNoUser`: the
guarded operations reject a missing active project, and the mutations also
reject a missing caller id. -/
theorem missing_context_guards_witness :
    listMembers ctxNoProject = .error ErrCode.BAD_REQUEST ∧
    listInvitations ctxNoProject = .error ErrCode.INTERNAL_SERVER_ERROR ∧
    invite ctxNoProject "a@b.c" Role.admin = .error ErrCode.BAD_REQUEST ∧
    changeRole ctxNoProject 1 Role.admin = .error ErrCode.BAD_REQUEST ∧
    remove ctxNoProject 1 = .error ErrCode.BAD_REQUEST ∧
    invite ctxNoUser "a@b.c" Role.admin = .error ErrCode.BAD_REQUEST ∧
    changeRole ctxNoUser 1 Role.admin = .error ErrCode.BAD_REQUEST ∧
    remove ctxNoUser 1 = .error ErrCode.BAD_REQUEST := by
  have h₁ := missing_context_guards ctxNoProject (Or.inl rfl)
  have h₂ := missing_context_guards ctxNoUser (Or.inr rfl)
  have h₀ := h₁.1 rfl
  exact ⟨h₀.1, h₀.2, h₁.2.1 "a@b.c" Role.admin, h₁.2.2.1 1 Role.admin,
    h₁.2.2.2 1, h₂.2.1 "a@b.c" Role.admin, h₂.2.2.1 1 Role.admin,
    h₂.2.2.2 1⟩

/-- Witness for C8 on `stepsExample`: the incomplete required design step
blocks navigation to rewards. -/
theorem canProceedToStep_gate_witness :
    canProceedToStep "rewards" stepsExample = false :=
  (canProceedToStep_gate stepsExample ⟨"design", true, false⟩ (by decide)
    rfl rfl rfl).1

/-- Witness for C9 on `formBothDisabled`: submission resolves to `none`. -/
theorem submitForm_both_disabled_witness :
    submitForm formBothDisabled = .ok none :=
  submitForm_both_disabled formBothDisabled rfl rfl

/-- Witness for C10 on `formRefereeOnly`: the resolved configuration carries
both the cash referrer entry (though that side is disabled) and the
discount referee entry. -/
theorem submitForm_enabled_shape_witness :
    submitForm formRefereeOnly = .ok (some
      { referrer :=
          { type := "cash", valueType := ValueType.fixed, value := 10,
            currency := "USD" }
        referee :=
          { type := "discount", valueType := ValueType.percentage,
            value := 20, currency := "USD", minPurchaseAmount := some 50,
            validityDays := 30 } }) :=
  submitForm_enabled_shape formRefereeOnly (by decide) (Or.inr rfl)

end RefRef
